import Mathlib

/-
Shallow embedding of the polymarket-streaming repository
(src/types.ts and the StreamingPlatform class), together with proofs of
the specified properties.

Conventions of the embedding:
- JS numbers that hold prices are modelled as rationals (Rat); times are
  millisecond epoch values modelled as Int.  JS Math.floor(x / 1000) on a
  difference of integers coincides with Int division by 1000 (Euclidean
  division, which is floor division for a positive divisor).
- The two JS Map fields are modelled as association lists where set
  prepends a binding and get returns the first binding, which is
  observationally equivalent for get/has/set.
- DOM writes are modelled as entries appended to a render log plus a
  renderedCountdown field recording the text of the countdown element;
  DOM elements are assumed present.
- window.setInterval / clearInterval are modelled by an explicit timer
  table: liveTimers is the list of currently registered interval ids and
  nextTimerId a fresh-id counter.
- The asynchronous this.loadEvents() call made by updateCountdown is
  modelled as incrementing refreshesRequested; the continuation of
  loadEvents (after the await on the catalog) is the separate operation
  loadEventsResolve, parameterised by the fetch outcome.
-/

namespace StreamingPlatform

/-- From src/types.ts: the only data source is chainlink. -/
inductive DataSource where
  | chainlink
deriving DecidableEq

/-- From src/types.ts: ConnectionStatus. -/
structure ConnectionStatus where
  connected : Bool
  source : Option DataSource
  lastUpdate : Option Int
  error : Option String
deriving DecidableEq

/-- Payload of a price update (src/types.ts PriceUpdate.payload). -/
structure PriceUpdatePayload where
  symbol : String
  timestamp : Int
  value : Rat
deriving DecidableEq

/-- From src/types.ts: PriceUpdate. -/
structure PriceUpdate where
  topic : String
  timestamp : Int
  payload : PriceUpdatePayload
deriving DecidableEq

/-- Event status as used throughout the platform code
(string literals upcoming / active / expired in the source). -/
inductive EventStatus where
  | upcoming
  | active
  | expired
deriving DecidableEq

/-- Position of a status in the Expired then Active then Upcoming order of
the event sequence. -/
def statusRank : EventStatus → Nat
  | .expired => 0
  | .active => 1
  | .upcoming => 2

/-- The event data consumed by StreamingPlatform (EventDisplayData from
event-manager.ts): slug, slot times in ms, a stored status field, and the
optional lastPrice field read by renderEventsTable. -/
structure EventDisplayData where
  slug : String
  title : String := ""
  startDate : Int
  endDate : Int
  status : EventStatus
  lastPrice : Option Rat := none
deriving DecidableEq

/-- Modelled from the spec: the event status derivation of the Event
Lifecycle Engine (event-manager.ts is absent from src).  The spec states:
now < startTime gives Upcoming; startTime <= now < endTime gives Active;
now >= endTime gives Expired. -/
def deriveStatus (startTime endTime now : Int) : EventStatus :=
  if now < startTime then .upcoming
  else if now < endTime then .active
  else .expired

/-- Modelled from the spec: getNext15MinIntervals from event-utils.ts
(absent from src) produces the start timestamps of the next count
15-minute slots; the platform only uses that the result for count = 10 is
nonempty. -/
def getNext15MinIntervals (count : Nat) (now : Int) : List Int :=
  (List.range count).map (fun i => (now / 900000 + 1 + Int.ofNat i) * 900000)

/-- Views the platform renders into the DOM; capture notifications are
recorded as entries of this type in a render log. -/
inductive RenderAction where
  | eventsTable
  | activePanel
  | priceDisplay
  | connectionUI
deriving DecidableEq

/-- Outcome of the awaited catalog fetch inside loadEvents. -/
inductive FetchResult where
  | ok (events : List EventDisplayData)
  | err

/-- First binding for a key in an association list (the Map.get view of
the JS Map fields). -/
def mapGet : List (String × Rat) → String → Option Rat
  | [], _ => none
  | (k, v) :: t, key => if key = k then some v else mapGet t key

/-- Map.set modelled by prepending; mapGet returns the newest binding. -/
def mapSet (m : List (String × Rat)) (k : String) (v : Rat) : List (String × Rat) :=
  (k, v) :: m

/-- Map.has. -/
def mapHas (m : List (String × Rat)) (k : String) : Bool :=
  (mapGet m k).isSome

/-- The mutable state of the StreamingPlatform class, plus the explicit
models of the DOM (renders, renderedCountdown), the timer table
(liveTimers, nextTimerId) and issued asynchronous refreshes
(refreshesRequested). -/
structure PlatformState where
  currentPrice : Option Rat
  priceHistory : List (Int × Rat)
  currentStatus : ConnectionStatus
  countdownInterval : Option Nat
  eventPriceToBeat : List (String × Rat)
  eventLastPrice : List (String × Rat)
  events : List EventDisplayData
  renders : List RenderAction
  renderedCountdown : Option String
  liveTimers : List Nat
  nextTimerId : Nat
  refreshesRequested : Nat
deriving DecidableEq

/-- maxHistorySize = 100 in the source. -/
def maxHistorySize : Nat := 100

/-- Field initialisers of the StreamingPlatform class. -/
def initState : PlatformState :=
  { currentPrice := none
    priceHistory := []
    currentStatus := { connected := false, source := none, lastUpdate := none, error := none }
    countdownInterval := none
    eventPriceToBeat := []
    eventLastPrice := []
    events := []
    renders := []
    renderedCountdown := none
    liveTimers := []
    nextTimerId := 0
    refreshesRequested := 0 }

/-- Record that a view was (re)rendered. -/
def logRender (a : RenderAction) (s : PlatformState) : PlatformState :=
  { s with renders := a :: s.renders }

/-- stopCountdown: clearInterval on the stored handle and null it. -/
def stopCountdown (s : PlatformState) : PlatformState :=
  match s.countdownInterval with
  | none => s
  | some id =>
      { s with liveTimers := s.liveTimers.erase id, countdownInterval := none }

/-- Two-digit zero padding, as in toString().padStart(2, "0"). -/
def pad2 (n : Nat) : String :=
  if n < 10 then "0" ++ toString n else toString n

/-- formatCountdown from the source: nonpositive seconds render as
00:00:00, otherwise hours, minutes and seconds each padded to 2 digits. -/
def formatCountdown (seconds : Int) : String :=
  if seconds ≤ 0 then "00:00:00"
  else
    let s := seconds.toNat
    pad2 (s / 3600) ++ ":" ++ pad2 (s % 3600 / 60) ++ ":" ++ pad2 (s % 60)

/-- The inner lookup of updateCountdown: the event following the first
event whose stored status is active (findIndex then index + 1). -/
def findNextAfterActive (events : List EventDisplayData) : Option EventDisplayData :=
  match events.findIdx? (fun e => decide (e.status = EventStatus.active)) with
  | none => none
  | some i => events.get? (i + 1)

/-- The expiry block of updateCountdown: when the countdown hits zero,
capture the current price (if any) as lastPrice of the event following
the first active one, unless already captured. -/
def expiryCapture (s1 : PlatformState) : PlatformState :=
  match s1.currentPrice with
  | none => s1
  | some p =>
      match findNextAfterActive s1.events with
      | none => s1
      | some nextEvent =>
          if mapHas s1.eventLastPrice nextEvent.slug then s1
          else { s1 with eventLastPrice := mapSet s1.eventLastPrice nextEvent.slug p }

/-- updateCountdown from the source.  If no event has stored status
active, stop the countdown.  Otherwise render
max(0, floor((endDate - now)/1000)) through formatCountdown; when that
value is 0, run the expiry capture, stop the countdown, and issue an
asynchronous loadEvents call (modelled as refreshesRequested + 1). -/
def updateCountdown (now : Int) (s : PlatformState) : PlatformState :=
  match s.events.find? (fun e => decide (e.status = EventStatus.active)) with
  | none => stopCountdown s
  | some e =>
      let timeLeft : Int := max 0 ((e.endDate - now) / 1000)
      let s1 := { s with renderedCountdown := some (formatCountdown timeLeft) }
      if timeLeft = 0 then
        let s3 := stopCountdown (expiryCapture s1)
        { s3 with refreshesRequested := s3.refreshesRequested + 1 }
      else s1

/-- startCountdown: stop any previous countdown, register a fresh
1-second interval, store its handle, then update immediately. -/
def startCountdown (now : Int) (s : PlatformState) : PlatformState :=
  let s1 := stopCountdown s
  let id := s1.nextTimerId
  let s2 := { s1 with
              liveTimers := id :: s1.liveTimers
              nextTimerId := id + 1
              countdownInterval := some id }
  updateCountdown now s2

/-- The inline write of renderActiveEvent: if the active event has no
stored price to beat and a current price exists, capture it. -/
def captureIfMissing (e : EventDisplayData) (s : PlatformState) : PlatformState :=
  match mapGet s.eventPriceToBeat e.slug, s.currentPrice with
  | none, some p => { s with eventPriceToBeat := mapSet s.eventPriceToBeat e.slug p }
  | _, _ => s

/-- renderActiveEvent from the source.  With no active event: stop the
countdown and render the empty panel.  With an active event: run the
inline capture; render the panel (whose countdown element starts as
placeholder text); then start the countdown. -/
def renderActiveEvent (now : Int) (s : PlatformState) : PlatformState :=
  match s.events.find? (fun e => decide (e.status = EventStatus.active)) with
  | none => logRender .activePanel (stopCountdown s)
  | some e =>
      let s1 := captureIfMissing e s
      let s2 := { logRender .activePanel s1 with renderedCountdown := some "--:--:--" }
      startCountdown now s2

/-- capturePriceForActiveEvent from the source: no-op when no price has
been received; otherwise, if some event has stored status active and its
slug has no priceToBeat entry, record the current price under it and
re-render the active-event panel. -/
def capturePriceForActiveEvent (now : Int) (s : PlatformState) : PlatformState :=
  match s.currentPrice with
  | none => s
  | some p =>
      match s.events.find? (fun e => decide (e.status = EventStatus.active)) with
      | none => s
      | some e =>
          if mapHas s.eventPriceToBeat e.slug then s
          else
            let s1 := { s with eventPriceToBeat := mapSet s.eventPriceToBeat e.slug p }
            renderActiveEvent now s1

/-- renderEventsTable from the source: first capture the price for a
newly active event, update the active-event panel, then render the table
rows. -/
def renderEventsTable (now : Int) (s : PlatformState) : PlatformState :=
  let s1 := capturePriceForActiveEvent now s
  let s2 := renderActiveEvent now s1
  logRender .eventsTable s2

/-- The adjacent-pair loop shared by capturePriceForExpiredEvent and
updateLastPrices: walk the event list; whenever the previous event is
expired and the current event has no lastPrice entry, record the current
price under its slug (and, in capturePriceForExpiredEvent only, re-render
the events table after the write). -/
def capturePass (now : Int) (withRender : Bool) :
    List EventDisplayData → PlatformState → PlatformState
  | [], s => s
  | [_], s => s
  | prev :: curr :: rest, s =>
      let s1 :=
        if prev.status = EventStatus.expired ∧ mapGet s.eventLastPrice curr.slug = none then
          match s.currentPrice with
          | some p =>
              let t := { s with eventLastPrice := mapSet s.eventLastPrice curr.slug p }
              if withRender then renderEventsTable now t else t
          | none => s
        else s
      capturePass now withRender (curr :: rest) s1

/-- capturePriceForExpiredEvent from the source: no-op when no price has
been received; otherwise run the adjacent-pair rule over the whole event
list, re-rendering the table after each first-time capture. -/
def capturePriceForExpiredEvent (now : Int) (s : PlatformState) : PlatformState :=
  match s.currentPrice with
  | none => s
  | some _ => capturePass now true s.events s

/-- updateLastPrices from the source: the same adjacent-pair rule, run on
event-list load, without per-capture re-rendering. -/
def updateLastPrices (now : Int) (s : PlatformState) : PlatformState :=
  match s.currentPrice with
  | none => s
  | some _ => capturePass now false s.events s

/-- updatePriceDisplay: pure DOM update of the price box. -/
def updatePriceDisplay (s : PlatformState) : PlatformState :=
  logRender .priceDisplay s

/-- updateUI: pure DOM update of the connection status bar. -/
def updateUI (s : PlatformState) : PlatformState :=
  logRender .connectionUI s

/-- handleStatusChange: replace the connection status wholesale. -/
def handleStatusChange (st : ConnectionStatus) (s : PlatformState) : PlatformState :=
  updateUI { s with currentStatus := st }

/-- The disconnect click handler from setupEventListeners: the transport
is told to disconnect, the connection status is reset, the UI updated. -/
def disconnectHandler (s : PlatformState) : PlatformState :=
  updateUI { s with
             currentStatus := { connected := false, source := none
                                lastUpdate := none, error := none } }

/-- handlePriceUpdate from the source: set currentPrice, push onto
priceHistory, evict the oldest entry past maxHistorySize, run both
capture rules, update the price display. -/
def handlePriceUpdate (now : Int) (u : PriceUpdate) (s : PlatformState) : PlatformState :=
  let s1 := { s with
              currentPrice := some u.payload.value
              priceHistory := s.priceHistory ++ [(u.payload.timestamp, u.payload.value)] }
  let s2 := if s1.priceHistory.length > maxHistorySize
            then { s1 with priceHistory := s1.priceHistory.tail }
            else s1
  let s3 := capturePriceForActiveEvent now s2
  let s4 := capturePriceForExpiredEvent now s3
  updatePriceDisplay s4

/-- Continuation of loadEvents after the awaited catalog fetch.  On
success the event list is replaced, last prices are updated and the table
rendered.  On failure the last good list is kept, and the placeholder
path runs updateLastPrices and renders the table when
getNext15MinIntervals is nonempty. -/
def loadEventsResolve (now : Int) (r : FetchResult) (s : PlatformState) : PlatformState :=
  match r with
  | .ok evs =>
      let s1 := { s with events := evs }
      renderEventsTable now (updateLastPrices now s1)
  | .err =>
      if (getNext15MinIntervals 10 now).length > 0 then
        renderEventsTable now (updateLastPrices now s)
      else s

/-- A firing of the registered countdown interval: the timer only runs
while an interval handle is installed. -/
def countdownTick (now : Int) (s : PlatformState) : PlatformState :=
  if s.countdownInterval.isSome then updateCountdown now s else s

/-- The external signals of the single-threaded event loop. -/
inductive Step where
  | tick (now : Int) (u : PriceUpdate)
  | statusChange (st : ConnectionStatus)
  | disconnectClick
  | countdownFire (now : Int)
  | refreshResolve (now : Int) (r : FetchResult)
  | eventsUpdated (now : Int) (evs : List EventDisplayData)

/-- Run one external signal to completion. -/
def applyStep : Step → PlatformState → PlatformState
  | .tick now u, s => handlePriceUpdate now u s
  | .statusChange st, s => handleStatusChange st s
  | .disconnectClick, s => disconnectHandler s
  | .countdownFire now, s => countdownTick now s
  | .refreshResolve now r, s => loadEventsResolve now r s
  | .eventsUpdated now evs, s => renderEventsTable now { s with events := evs }

/-- States reachable from the initial field values by external signals. -/
inductive Reachable : PlatformState → Prop
  | init : Reachable initState
  | step (a : Step) {s : PlatformState} : Reachable s → Reachable (applyStep a s)

/-- Number of recorded renders of a given view. -/
def countRender (a : RenderAction) (s : PlatformState) : Nat :=
  s.renders.count a

/-- Evolution relation satisfied by every operation of the platform:
captured map entries are never lost or changed, the render log only
grows, and requested refreshes are never retracted. -/
def Evol (s t : PlatformState) : Prop :=
  (∀ k v, mapGet s.eventPriceToBeat k = some v → mapGet t.eventPriceToBeat k = some v) ∧
  (∀ k v, mapGet s.eventLastPrice k = some v → mapGet t.eventLastPrice k = some v) ∧
  (∃ l, t.renders = l ++ s.renders) ∧
  s.refreshesRequested ≤ t.refreshesRequested

/-- Timer-table invariant: the registered countdown intervals are exactly
the stored handle, and the stored handle is an already-issued id. -/
def TimerInv (s : PlatformState) : Prop :=
  s.liveTimers = s.countdownInterval.toList ∧
  (∀ id, s.countdownInterval = some id → id < s.nextTimerId)

/-- Bundled behaviour of every internal operation except the price tick
itself: Evol, plus the price fields are untouched, the timer invariant is
preserved, and with no price received yet both capture maps are left
exactly as they were. -/
def Tame (s t : PlatformState) : Prop :=
  Evol s t ∧
  t.currentPrice = s.currentPrice ∧
  t.priceHistory = s.priceHistory ∧
  (TimerInv s → TimerInv t) ∧
  (s.currentPrice = none →
    t.eventPriceToBeat = s.eventPriceToBeat ∧ t.eventLastPrice = s.eventLastPrice)

/-- Consistency of the price fields: whenever the history has a last
entry, the current price equals its value. -/
def PriceInv (s : PlatformState) : Prop :=
  ∀ e : Int × Rat, s.priceHistory.getLast? = some e → s.currentPrice = some e.2

/-- Concrete fixtures for the multi-expiry scenario: three contiguous
15-minute slots with stored statuses expired, expired, active. -/
def evE1 : EventDisplayData :=
  { slug := "e1", startDate := 0, endDate := 900000, status := .expired }

/-- Second slot of the multi-expiry scenario. -/
def evE2 : EventDisplayData :=
  { slug := "e2", startDate := 900000, endDate := 1800000, status := .expired }

/-- Third (active) slot of the multi-expiry scenario. -/
def evE3 : EventDisplayData :=
  { slug := "e3", startDate := 1800000, endDate := 2700000, status := .active }

/-- A price tick carrying value V at the scenario instant. -/
def tickU (V : Rat) : PriceUpdate :=
  { topic := "crypto_prices_chainlink", timestamp := 2000000
    payload := { symbol := "btc/usd", timestamp := 2000000, value := V } }

/-- Scenario start state: three events loaded, nothing captured. -/
def stateC4 : PlatformState := { initState with events := [evE1, evE2, evE3] }

/-- State of the scenario after the tick has been recorded. -/
def stateC4a (V : Rat) : PlatformState :=
  { initState with
    events := [evE1, evE2, evE3]
    currentPrice := some V
    priceHistory := [(2000000, V)] }

/-- State of the scenario after the price-to-beat capture for evE3. -/
def stateC4b (V : Rat) : PlatformState :=
  { currentPrice := some V
    priceHistory := [(2000000, V)]
    currentStatus := { connected := false, source := none, lastUpdate := none, error := none }
    countdownInterval := some 0
    eventPriceToBeat := [("e3", V)]
    eventLastPrice := []
    events := [evE1, evE2, evE3]
    renders := [.activePanel]
    renderedCountdown := some "00:11:40"
    liveTimers := [0]
    nextTimerId := 1
    refreshesRequested := 0 }

/-- A fixture state with both maps populated, used to check that later
operations never overwrite captured entries. -/
def stateW : PlatformState :=
  { currentPrice := some 6
    priceHistory := [(1, 6)]
    currentStatus := { connected := false, source := none, lastUpdate := none, error := none }
    countdownInterval := none
    eventPriceToBeat := [("e3", 5)]
    eventLastPrice := [("e2", 4), ("e3", 5)]
    events := [evE1, evE2, evE3]
    renders := []
    renderedCountdown := none
    liveTimers := []
    nextTimerId := 0
    refreshesRequested := 0 }

/-- An upcoming slot after evE3, used by the countdown fixtures. -/
def evUp : EventDisplayData :=
  { slug := "e4", startDate := 2700000, endDate := 3600000, status := .upcoming }

/-- A state whose countdown is running for the active event evE3. -/
def stateC5 : PlatformState :=
  { currentPrice := some 5
    priceHistory := [(1, 5)]
    currentStatus := { connected := false, source := none, lastUpdate := none, error := none }
    countdownInterval := some 0
    eventPriceToBeat := []
    eventLastPrice := []
    events := [evE3, evUp]
    renders := []
    renderedCountdown := none
    liveTimers := [0]
    nextTimerId := 1
    refreshesRequested := 0 }


theorem mapGet_mapSet_self (m : List (String × Rat)) (k : String) (v : Rat) :
    mapGet (mapSet m k v) k = some v := by
  simp [mapGet, mapSet]

theorem mapGet_mapSet_preserve {m : List (String × Rat)} {k2 : String} {v2 : Rat}
    (hk2 : mapGet m k2 = none) {k : String} {v : Rat} (h : mapGet m k = some v) :
    mapGet (mapSet m k2 v2) k = some v := by
  by_cases hk : k = k2
  · rw [hk, hk2] at h; cases h
  · simpa [mapGet, mapSet, hk] using h

theorem mapHas_false_iff {m : List (String × Rat)} {k : String} :
    mapHas m k = false ↔ mapGet m k = none := by
  unfold mapHas
  cases mapGet m k <;> simp

theorem tame_refl (s : PlatformState) : Tame s s :=
  ⟨⟨fun _ _ h => h, fun _ _ h => h, ⟨[], (List.nil_append _).symm⟩, Nat.le_refl _⟩,
    rfl, rfl, fun h => h, fun _ => ⟨rfl, rfl⟩⟩

theorem tame_trans {s t u : PlatformState} (h1 : Tame s t) (h2 : Tame t u) : Tame s u := by
  obtain ⟨⟨p1, q1, ⟨l1, r1⟩, f1⟩, c1, y1, i1, z1⟩ := h1
  obtain ⟨⟨p2, q2, ⟨l2, r2⟩, f2⟩, c2, y2, i2, z2⟩ := h2
  refine ⟨⟨fun k v h => p2 k v (p1 k v h), fun k v h => q2 k v (q1 k v h),
    ⟨l2 ++ l1, by rw [r2, r1, List.append_assoc]⟩, Nat.le_trans f1 f2⟩,
    c2.trans c1, y2.trans y1, fun h => i2 (i1 h), ?_⟩
  intro hnone
  obtain ⟨a1, b1⟩ := z1 hnone
  obtain ⟨a2, b2⟩ := z2 (by rw [c1, hnone])
  exact ⟨a2.trans a1, b2.trans b1⟩

theorem tame_logRender (a : RenderAction) (s : PlatformState) : Tame s (logRender a s) :=
  ⟨⟨fun _ _ h => h, fun _ _ h => h, ⟨[a], rfl⟩, Nat.le_refl _⟩,
    rfl, rfl, fun h => h, fun _ => ⟨rfl, rfl⟩⟩

theorem tame_setRenderedCountdown (x : Option String) (s : PlatformState) :
    Tame s { s with renderedCountdown := x } :=
  ⟨⟨fun _ _ h => h, fun _ _ h => h, ⟨[], rfl⟩, Nat.le_refl _⟩,
    rfl, rfl, fun h => h, fun _ => ⟨rfl, rfl⟩⟩

theorem tame_setCurrentStatus (st : ConnectionStatus) (s : PlatformState) :
    Tame s { s with currentStatus := st } :=
  ⟨⟨fun _ _ h => h, fun _ _ h => h, ⟨[], rfl⟩, Nat.le_refl _⟩,
    rfl, rfl, fun h => h, fun _ => ⟨rfl, rfl⟩⟩

theorem tame_setEvents (evs : List EventDisplayData) (s : PlatformState) :
    Tame s { s with events := evs } :=
  ⟨⟨fun _ _ h => h, fun _ _ h => h, ⟨[], rfl⟩, Nat.le_refl _⟩,
    rfl, rfl, fun h => h, fun _ => ⟨rfl, rfl⟩⟩

theorem tame_bumpRefresh (s : PlatformState) :
    Tame s { s with refreshesRequested := s.refreshesRequested + 1 } :=
  ⟨⟨fun _ _ h => h, fun _ _ h => h, ⟨[], rfl⟩, Nat.le_succ _⟩,
    rfl, rfl, fun h => h, fun _ => ⟨rfl, rfl⟩⟩

theorem tame_stopCountdown (s : PlatformState) : Tame s (stopCountdown s) := by
  unfold stopCountdown
  split
  · exact tame_refl s
  · rename_i id heq
    refine ⟨⟨fun _ _ h => h, fun _ _ h => h, ⟨[], rfl⟩, Nat.le_refl _⟩,
      rfl, rfl, ?_, fun _ => ⟨rfl, rfl⟩⟩
    rintro ⟨h1, _⟩
    constructor
    · show s.liveTimers.erase id = Option.toList none
      rw [h1, heq]
      simp [Option.toList]
    · intro j hj
      cases hj

theorem stopCountdown_interval (s : PlatformState) :
    (stopCountdown s).countdownInterval = none := by
  unfold stopCountdown
  split
  · assumption
  · rfl

theorem tame_installTimer {s : PlatformState} (h : s.countdownInterval = none) :
    Tame s { s with
             liveTimers := s.nextTimerId :: s.liveTimers
             nextTimerId := s.nextTimerId + 1
             countdownInterval := some s.nextTimerId } := by
  refine ⟨⟨fun _ _ h => h, fun _ _ h => h, ⟨[], rfl⟩, Nat.le_refl _⟩,
    rfl, rfl, ?_, fun _ => ⟨rfl, rfl⟩⟩
  rintro ⟨h1, _⟩
  constructor
  · show s.nextTimerId :: s.liveTimers = _
    rw [h1, h]
    rfl
  · intro j hj
    cases hj
    exact Nat.lt_succ_self _

theorem tame_setPtbGuarded {s : PlatformState} {k : String} {p : Rat}
    (hget : mapGet s.eventPriceToBeat k = none) (hp : s.currentPrice = some p) :
    Tame s { s with eventPriceToBeat := mapSet s.eventPriceToBeat k p } := by
  refine ⟨⟨fun k2 v h => mapGet_mapSet_preserve hget h, fun _ _ h => h,
    ⟨[], rfl⟩, Nat.le_refl _⟩, rfl, rfl, fun h => h, ?_⟩
  intro hnone
  rw [hnone] at hp
  cases hp

theorem tame_setLpGuarded {s : PlatformState} {k : String} {p : Rat}
    (hget : mapGet s.eventLastPrice k = none) (hp : s.currentPrice = some p) :
    Tame s { s with eventLastPrice := mapSet s.eventLastPrice k p } := by
  refine ⟨⟨fun _ _ h => h, fun k2 v h => mapGet_mapSet_preserve hget h,
    ⟨[], rfl⟩, Nat.le_refl _⟩, rfl, rfl, fun h => h, ?_⟩
  intro hnone
  rw [hnone] at hp
  cases hp

theorem tame_expiryCapture (s1 : PlatformState) : Tame s1 (expiryCapture s1) := by
  unfold expiryCapture
  split
  · exact tame_refl s1
  · rename_i p hp
    split
    · exact tame_refl s1
    · rename_i nextEvent hnext
      split
      · exact tame_refl s1
      · rename_i hh
        exact tame_setLpGuarded (mapHas_false_iff.mp ((Bool.not_eq_true _).mp hh)) hp

theorem tame_updateCountdown (now : Int) (s : PlatformState) :
    Tame s (updateCountdown now s) := by
  unfold updateCountdown
  split
  · exact tame_stopCountdown s
  · dsimp only
    split
    · exact tame_trans (tame_setRenderedCountdown _ _)
        (tame_trans (tame_expiryCapture _)
          (tame_trans (tame_stopCountdown _) (tame_bumpRefresh _)))
    · exact tame_setRenderedCountdown _ _

theorem tame_startCountdown (now : Int) (s : PlatformState) :
    Tame s (startCountdown now s) := by
  unfold startCountdown
  exact tame_trans (tame_stopCountdown s)
    (tame_trans (tame_installTimer (stopCountdown_interval s)) (tame_updateCountdown now _))

theorem tame_captureIfMissing (e : EventDisplayData) (s : PlatformState) :
    Tame s (captureIfMissing e s) := by
  unfold captureIfMissing
  split
  · rename_i p hget hp
    exact tame_setPtbGuarded hget hp
  · exact tame_refl s

theorem tame_renderActiveEvent (now : Int) (s : PlatformState) :
    Tame s (renderActiveEvent now s) := by
  unfold renderActiveEvent
  split
  · exact tame_trans (tame_stopCountdown s) (tame_logRender _ _)
  · exact tame_trans (tame_captureIfMissing _ s) (tame_trans (tame_logRender _ _)
      (tame_trans (tame_setRenderedCountdown _ _) (tame_startCountdown now _)))

theorem tame_capturePriceForActiveEvent (now : Int) (s : PlatformState) :
    Tame s (capturePriceForActiveEvent now s) := by
  unfold capturePriceForActiveEvent
  split
  · exact tame_refl s
  · rename_i p hp
    split
    · exact tame_refl s
    · rename_i e hfind
      split
      · exact tame_refl s
      · rename_i hh
        exact tame_trans
          (tame_setPtbGuarded (mapHas_false_iff.mp ((Bool.not_eq_true _).mp hh)) hp)
          (tame_renderActiveEvent now _)

theorem tame_renderEventsTable (now : Int) (s : PlatformState) :
    Tame s (renderEventsTable now s) := by
  unfold renderEventsTable
  exact tame_trans (tame_capturePriceForActiveEvent now s)
    (tame_trans (tame_renderActiveEvent now _) (tame_logRender _ _))

theorem tame_capturePass (now : Int) (b : Bool) (l : List EventDisplayData) :
    ∀ s : PlatformState, Tame s (capturePass now b l s) := by
  induction l with
  | nil => intro s; rw [capturePass]; exact tame_refl s
  | cons a tl ih =>
      intro s
      cases tl with
      | nil => rw [capturePass]; exact tame_refl s
      | cons c r =>
          rw [capturePass]
          refine tame_trans ?_ (ih _)
          split
          · rename_i hcond
            split
            · rename_i p hp
              cases b with
              | false => exact tame_setLpGuarded hcond.2 hp
              | true =>
                  exact tame_trans (tame_setLpGuarded hcond.2 hp)
                    (tame_renderEventsTable now _)
            · exact tame_refl s
          · exact tame_refl s

theorem tame_capturePriceForExpiredEvent (now : Int) (s : PlatformState) :
    Tame s (capturePriceForExpiredEvent now s) := by
  unfold capturePriceForExpiredEvent
  split
  · exact tame_refl s
  · exact tame_capturePass now true s.events s

theorem tame_updateLastPrices (now : Int) (s : PlatformState) :
    Tame s (updateLastPrices now s) := by
  unfold updateLastPrices
  split
  · exact tame_refl s
  · exact tame_capturePass now false s.events s

theorem tame_updatePriceDisplay (s : PlatformState) : Tame s (updatePriceDisplay s) :=
  tame_logRender _ _

theorem tame_updateUI (s : PlatformState) : Tame s (updateUI s) :=
  tame_logRender _ _

theorem tame_handleStatusChange (st : ConnectionStatus) (s : PlatformState) :
    Tame s (handleStatusChange st s) :=
  tame_trans (tame_setCurrentStatus st s) (tame_updateUI _)

theorem tame_disconnectHandler (s : PlatformState) : Tame s (disconnectHandler s) :=
  tame_trans (tame_setCurrentStatus _ s) (tame_updateUI _)

theorem tame_loadEventsResolve (now : Int) (r : FetchResult) (s : PlatformState) :
    Tame s (loadEventsResolve now r s) := by
  unfold loadEventsResolve
  split
  · exact tame_trans (tame_setEvents _ s)
      (tame_trans (tame_updateLastPrices now _) (tame_renderEventsTable now _))
  · split
    · exact tame_trans (tame_updateLastPrices now s) (tame_renderEventsTable now _)
    · exact tame_refl s

theorem tame_countdownTick (now : Int) (s : PlatformState) :
    Tame s (countdownTick now s) := by
  unfold countdownTick
  split
  · exact tame_updateCountdown now s
  · exact tame_refl s

theorem evol_trans {s t u : PlatformState} (h1 : Evol s t) (h2 : Evol t u) : Evol s u := by
  obtain ⟨p1, q1, ⟨l1, r1⟩, f1⟩ := h1
  obtain ⟨p2, q2, ⟨l2, r2⟩, f2⟩ := h2
  exact ⟨fun k v h => p2 k v (p1 k v h), fun k v h => q2 k v (q1 k v h),
    ⟨l2 ++ l1, by rw [r2, r1, List.append_assoc]⟩, Nat.le_trans f1 f2⟩

theorem tickCore_spec (now : Int) (s2 : PlatformState) :
    Evol s2 (updatePriceDisplay (capturePriceForExpiredEvent now
      (capturePriceForActiveEvent now s2))) ∧
    (TimerInv s2 → TimerInv (updatePriceDisplay (capturePriceForExpiredEvent now
      (capturePriceForActiveEvent now s2)))) ∧
    (updatePriceDisplay (capturePriceForExpiredEvent now
      (capturePriceForActiveEvent now s2))).currentPrice = s2.currentPrice ∧
    (updatePriceDisplay (capturePriceForExpiredEvent now
      (capturePriceForActiveEvent now s2))).priceHistory = s2.priceHistory := by
  refine ⟨evol_trans (tame_capturePriceForActiveEvent now s2).1
    (evol_trans (tame_capturePriceForExpiredEvent now _).1 (tame_updatePriceDisplay _).1),
    ?_, ?_, ?_⟩
  · intro hi
    exact (tame_updatePriceDisplay _).2.2.2.1
      ((tame_capturePriceForExpiredEvent now _).2.2.2.1
        ((tame_capturePriceForActiveEvent now s2).2.2.2.1 hi))
  · rw [(tame_updatePriceDisplay _).2.1,
      (tame_capturePriceForExpiredEvent now _).2.1,
      (tame_capturePriceForActiveEvent now s2).2.1]
  · rw [(tame_updatePriceDisplay _).2.2.1,
      (tame_capturePriceForExpiredEvent now _).2.2.1,
      (tame_capturePriceForActiveEvent now s2).2.2.1]

theorem handlePriceUpdate_spec (now : Int) (u : PriceUpdate) (s : PlatformState) :
    Evol s (handlePriceUpdate now u s) ∧
    (TimerInv s → TimerInv (handlePriceUpdate now u s)) ∧
    (handlePriceUpdate now u s).currentPrice = some u.payload.value ∧
    (handlePriceUpdate now u s).priceHistory.getLast? =
      some (u.payload.timestamp, u.payload.value) := by
  unfold handlePriceUpdate
  dsimp only
  split
  · rename_i hlen
    refine ⟨?_, ?_, ?_, ?_⟩
    · refine evol_trans ?_ (tickCore_spec now _).1
      exact ⟨fun _ _ h => h, fun _ _ h => h, ⟨[], rfl⟩, Nat.le_refl _⟩
    · intro hi
      refine (tickCore_spec now _).2.1 ?_
      exact hi
    · rw [(tickCore_spec now _).2.2.1]
    · rw [(tickCore_spec now _).2.2.2]
      rcases hpH : s.priceHistory with _ | ⟨hd, tl⟩
      · rw [hpH] at hlen
        simp [maxHistorySize] at hlen
      · simp [List.getLast?_concat]
  · refine ⟨?_, ?_, ?_, ?_⟩
    · refine evol_trans ?_ (tickCore_spec now _).1
      exact ⟨fun _ _ h => h, fun _ _ h => h, ⟨[], rfl⟩, Nat.le_refl _⟩
    · intro hi
      refine (tickCore_spec now _).2.1 ?_
      exact hi
    · rw [(tickCore_spec now _).2.2.1]
    · rw [(tickCore_spec now _).2.2.2]
      simp [List.getLast?_concat]

theorem evol_applyStep (a : Step) (s : PlatformState) : Evol s (applyStep a s) := by
  cases a with
  | tick now u => exact (handlePriceUpdate_spec now u s).1
  | statusChange st => exact (tame_handleStatusChange st s).1
  | disconnectClick => exact (tame_disconnectHandler s).1
  | countdownFire now => exact (tame_countdownTick now s).1
  | refreshResolve now r => exact (tame_loadEventsResolve now r s).1
  | eventsUpdated now evs =>
      exact evol_trans (t := { s with events := evs })
        ⟨fun _ _ h => h, fun _ _ h => h, ⟨[], rfl⟩, Nat.le_refl _⟩
        (tame_renderEventsTable now _).1

theorem timerInv_applyStep (a : Step) {s : PlatformState} (h : TimerInv s) :
    TimerInv (applyStep a s) := by
  cases a with
  | tick now u => exact (handlePriceUpdate_spec now u s).2.1 h
  | statusChange st => exact (tame_handleStatusChange st s).2.2.2.1 h
  | disconnectClick => exact (tame_disconnectHandler s).2.2.2.1 h
  | countdownFire now => exact (tame_countdownTick now s).2.2.2.1 h
  | refreshResolve now r => exact (tame_loadEventsResolve now r s).2.2.2.1 h
  | eventsUpdated now evs => exact (tame_renderEventsTable now _).2.2.2.1 h

theorem priceInv_applyStep (a : Step) {s : PlatformState} (h : PriceInv s) :
    PriceInv (applyStep a s) := by
  cases a with
  | tick now u =>
      simp only [applyStep]
      intro e hlast
      rw [(handlePriceUpdate_spec now u s).2.2.2] at hlast
      cases hlast
      exact (handlePriceUpdate_spec now u s).2.2.1
  | statusChange st =>
      simp only [applyStep]
      intro e hlast
      rw [(tame_handleStatusChange st s).2.2.1] at hlast
      rw [(tame_handleStatusChange st s).2.1]
      exact h e hlast
  | disconnectClick =>
      simp only [applyStep]
      intro e hlast
      rw [(tame_disconnectHandler s).2.2.1] at hlast
      rw [(tame_disconnectHandler s).2.1]
      exact h e hlast
  | countdownFire now =>
      simp only [applyStep]
      intro e hlast
      rw [(tame_countdownTick now s).2.2.1] at hlast
      rw [(tame_countdownTick now s).2.1]
      exact h e hlast
  | refreshResolve now r =>
      simp only [applyStep]
      intro e hlast
      rw [(tame_loadEventsResolve now r s).2.2.1] at hlast
      rw [(tame_loadEventsResolve now r s).2.1]
      exact h e hlast
  | eventsUpdated now evs =>
      simp only [applyStep]
      intro e hlast
      rw [(tame_renderEventsTable now _).2.2.1] at hlast
      rw [(tame_renderEventsTable now _).2.1]
      exact h e hlast

theorem deriveStatus_eq_active {st en now : Int} :
    deriveStatus st en now = .active ↔ st ≤ now ∧ now < en := by
  unfold deriveStatus
  split_ifs with h1 h2
  · simp only [reduceCtorEq, false_iff]
    omega
  · simp only [true_iff]
    omega
  · simp only [reduceCtorEq, false_iff]
    omega

theorem deriveStatus_of_lt_start {st en now : Int} (h : now < st) :
    deriveStatus st en now = .upcoming := by
  simp [deriveStatus, h]

theorem slots_end_le_start (es : List EventDisplayData)
    (hdur : ∀ e ∈ es, e.endDate = e.startDate + 900000)
    (hadj : ∀ i, (h : i + 1 < es.length) →
      (es.get ⟨i, Nat.lt_of_succ_lt h⟩).endDate = (es.get ⟨i + 1, h⟩).startDate) :
    ∀ i j (hi : i < es.length) (hj : j < es.length), i < j →
      (es.get ⟨i, hi⟩).endDate ≤ (es.get ⟨j, hj⟩).startDate := by
  intro i j hi hj hij
  induction j with
  | zero => omega
  | succ j2 ih =>
      rcases Nat.lt_or_ge i j2 with hlt | hge
      · have hj2 : j2 < es.length := Nat.lt_of_succ_lt hj
        have h1 := ih hj2 hlt
        have h2 : (es.get ⟨j2, hj2⟩).startDate ≤ (es.get ⟨j2, hj2⟩).endDate := by
          have := hdur _ (es.get_mem j2 hj2)
          omega
        have h3 := hadj j2 hj
        omega
      · have hij2 : i = j2 := by omega
        subst hij2
        have h3 := hadj i hj
        omega

/-- C1: for every ordered event list of contiguous, non-overlapping
15-minute slots and every instant now, with statuses derived by the
spec rule (Upcoming / Active / Expired), at most one event is Active and
the statuses are monotone along the sequence: Expired first, then at most
one Active, then Upcoming. -/
theorem derived_statuses_invariant (es : List EventDisplayData) (now : Int)
    (hdur : ∀ e ∈ es, e.endDate = e.startDate + 900000)
    (hadj : ∀ i, (h : i + 1 < es.length) →
      (es.get ⟨i, Nat.lt_of_succ_lt h⟩).endDate = (es.get ⟨i + 1, h⟩).startDate) :
    (∀ i j (hi : i < es.length) (hj : j < es.length),
      deriveStatus (es.get ⟨i, hi⟩).startDate (es.get ⟨i, hi⟩).endDate now = .active →
      deriveStatus (es.get ⟨j, hj⟩).startDate (es.get ⟨j, hj⟩).endDate now = .active →
      i = j) ∧
    (∀ i j (hi : i < es.length) (hj : j < es.length), i ≤ j →
      statusRank (deriveStatus (es.get ⟨i, hi⟩).startDate (es.get ⟨i, hi⟩).endDate now) ≤
      statusRank (deriveStatus (es.get ⟨j, hj⟩).startDate (es.get ⟨j, hj⟩).endDate now)) := by
  have key := slots_end_le_start es hdur hadj
  have hstartlt : ∀ k (hk : k < es.length),
      (es.get ⟨k, hk⟩).startDate < (es.get ⟨k, hk⟩).endDate := by
    intro k hk
    have := hdur _ (es.get_mem k hk)
    omega
  have hup : ∀ i j (hi : i < es.length) (hj : j < es.length), i < j →
      deriveStatus (es.get ⟨i, hi⟩).startDate (es.get ⟨i, hi⟩).endDate now = .active →
      deriveStatus (es.get ⟨j, hj⟩).startDate (es.get ⟨j, hj⟩).endDate now = .upcoming := by
    intro i j hi hj hij hact
    obtain ⟨h1, h2⟩ := deriveStatus_eq_active.mp hact
    exact deriveStatus_of_lt_start (lt_of_lt_of_le h2 (key i j hi hj hij))
  constructor
  · intro i j hi hj ha hb
    rcases lt_trichotomy i j with hlt | heq | hgt
    · rw [hup i j hi hj hlt ha] at hb
      cases hb
    · exact heq
    · rw [hup j i hj hi hgt hb] at ha
      cases ha
  · intro i j hi hj hij
    rcases Nat.lt_or_ge i j with hlt | hge
    · by_cases h1 : now < (es.get ⟨i, hi⟩).startDate
      · have hj1 : now < (es.get ⟨j, hj⟩).startDate := by
          have := key i j hi hj hlt
          have := hstartlt i hi
          omega
        rw [deriveStatus_of_lt_start h1, deriveStatus_of_lt_start hj1]
      · by_cases h2 : now < (es.get ⟨i, hi⟩).endDate
        · have hact : deriveStatus (es.get ⟨i, hi⟩).startDate (es.get ⟨i, hi⟩).endDate now =
              .active := deriveStatus_eq_active.mpr ⟨Int.not_lt.mp h1, h2⟩
          rw [hact, hup i j hi hj hlt hact]
          simp [statusRank]
        · have hexp : deriveStatus (es.get ⟨i, hi⟩).startDate (es.get ⟨i, hi⟩).endDate now =
              .expired := by
            unfold deriveStatus
            rw [if_neg h1, if_neg h2]
          rw [hexp]
          exact Nat.zero_le _
    · have heq : i = j := by omega
      subst heq
      exact Nat.le_refl _

/-- C1 witness: the invariant instantiated on three concrete contiguous
slots at instant 1000000 (the middle slot is the active one). -/
theorem derived_statuses_invariant_witness :
    (1 : Nat) = 1 ∧
    statusRank (deriveStatus evE1.startDate evE1.endDate 1000000) ≤
      statusRank (deriveStatus evE3.startDate evE3.endDate 1000000) := by
  have h := derived_statuses_invariant [evE1, evE2, evE3] 1000000
    (by intro e he; fin_cases he <;> rfl)
    (by
      intro i h
      simp only [List.length_cons, List.length_nil] at h
      rcases i with _ | _ | n
      · rfl
      · rfl
      · omega)
  exact ⟨h.1 1 1 (by decide) (by decide) (by decide) (by decide),
    h.2 0 2 (by decide) (by decide) (by decide)⟩

/-- C2: the price-to-beat capture is write-once per slug.  Once a slug
has an entry, a price tick, an events-table render, or an active-event
render with any later price leaves the stored value unchanged. -/
theorem priceToBeat_write_once (now : Int) (u : PriceUpdate) (s : PlatformState)
    (k : String) (v : Rat) (h : mapGet s.eventPriceToBeat k = some v) :
    mapGet (handlePriceUpdate now u s).eventPriceToBeat k = some v ∧
    mapGet (renderEventsTable now s).eventPriceToBeat k = some v ∧
    mapGet (renderActiveEvent now s).eventPriceToBeat k = some v :=
  ⟨(handlePriceUpdate_spec now u s).1.1 k v h,
    (tame_renderEventsTable now s).1.1 k v h,
    (tame_renderActiveEvent now s).1.1 k v h⟩

/-- C2 witness: a state that already stores 5 as price to beat for slug
e3 keeps it across a tick carrying 7, a table render and a panel
render. -/
theorem priceToBeat_write_once_witness :
    mapGet (handlePriceUpdate 2000000 (tickU 7) stateW).eventPriceToBeat "e3" = some 5 ∧
    mapGet (renderEventsTable 2000000 stateW).eventPriceToBeat "e3" = some 5 ∧
    mapGet (renderActiveEvent 2000000 stateW).eventPriceToBeat "e3" = some 5 :=
  priceToBeat_write_once 2000000 (tickU 7) stateW "e3" 5 (by rfl)

/-- C3: the last-price capture is write-once per slug.  Once a slug has
an entry, no sequence of further external signals (ticks, renders,
event-list loads, countdown firings) changes the stored value. -/
theorem lastPrice_write_once (steps : List Step) (s : PlatformState)
    (k : String) (v : Rat) (h : mapGet s.eventLastPrice k = some v) :
    mapGet ((steps.foldl (fun t a => applyStep a t) s).eventLastPrice) k = some v := by
  induction steps generalizing s with
  | nil => exact h
  | cons a rest ih => exact ih _ ((evol_applyStep a s).2.1 k v h)

/-- C3 witness: slug e2 keeps its captured value 4 across a later tick, a
countdown firing and a failed refresh. -/
theorem lastPrice_write_once_witness :
    mapGet (([Step.tick 2000000 (tickU 7), Step.countdownFire 2500000,
        Step.refreshResolve 2600000 FetchResult.err].foldl
      (fun t a => applyStep a t) stateW).eventLastPrice) "e2" = some 4 :=
  lastPrice_write_once _ stateW "e2" 4 (by rfl)

/-- C6: with no price ever received, no pass of any capture rule writes
to either map: both maps are left exactly unchanged (no sentinel such as
zero is ever stored, so a skipped capture stays distinguishable from a
captured zero). -/
theorem no_price_no_capture (now : Int) (r : FetchResult) (s : PlatformState)
    (h : s.currentPrice = none) :
    ((capturePriceForActiveEvent now s).eventPriceToBeat = s.eventPriceToBeat ∧
      (capturePriceForActiveEvent now s).eventLastPrice = s.eventLastPrice) ∧
    ((capturePriceForExpiredEvent now s).eventPriceToBeat = s.eventPriceToBeat ∧
      (capturePriceForExpiredEvent now s).eventLastPrice = s.eventLastPrice) ∧
    ((updateLastPrices now s).eventPriceToBeat = s.eventPriceToBeat ∧
      (updateLastPrices now s).eventLastPrice = s.eventLastPrice) ∧
    ((renderEventsTable now s).eventPriceToBeat = s.eventPriceToBeat ∧
      (renderEventsTable now s).eventLastPrice = s.eventLastPrice) ∧
    ((renderActiveEvent now s).eventPriceToBeat = s.eventPriceToBeat ∧
      (renderActiveEvent now s).eventLastPrice = s.eventLastPrice) ∧
    ((countdownTick now s).eventPriceToBeat = s.eventPriceToBeat ∧
      (countdownTick now s).eventLastPrice = s.eventLastPrice) ∧
    ((loadEventsResolve now r s).eventPriceToBeat = s.eventPriceToBeat ∧
      (loadEventsResolve now r s).eventLastPrice = s.eventLastPrice) :=
  ⟨(tame_capturePriceForActiveEvent now s).2.2.2.2 h,
    (tame_capturePriceForExpiredEvent now s).2.2.2.2 h,
    (tame_updateLastPrices now s).2.2.2.2 h,
    (tame_renderEventsTable now s).2.2.2.2 h,
    (tame_renderActiveEvent now s).2.2.2.2 h,
    (tame_countdownTick now s).2.2.2.2 h,
    (tame_loadEventsResolve now r s).2.2.2.2 h⟩

/-- C6 witness: on the three-event state with expired predecessors and no
price received, every pass leaves both (empty) maps empty. -/
theorem no_price_no_capture_witness :
    ((capturePriceForActiveEvent 2000000 stateC4).eventPriceToBeat =
        stateC4.eventPriceToBeat ∧
      (capturePriceForActiveEvent 2000000 stateC4).eventLastPrice =
        stateC4.eventLastPrice) ∧
    ((capturePriceForExpiredEvent 2000000 stateC4).eventPriceToBeat =
        stateC4.eventPriceToBeat ∧
      (capturePriceForExpiredEvent 2000000 stateC4).eventLastPrice =
        stateC4.eventLastPrice) ∧
    ((updateLastPrices 2000000 stateC4).eventPriceToBeat = stateC4.eventPriceToBeat ∧
      (updateLastPrices 2000000 stateC4).eventLastPrice = stateC4.eventLastPrice) ∧
    ((renderEventsTable 2000000 stateC4).eventPriceToBeat = stateC4.eventPriceToBeat ∧
      (renderEventsTable 2000000 stateC4).eventLastPrice = stateC4.eventLastPrice) ∧
    ((renderActiveEvent 2000000 stateC4).eventPriceToBeat = stateC4.eventPriceToBeat ∧
      (renderActiveEvent 2000000 stateC4).eventLastPrice = stateC4.eventLastPrice) ∧
    ((countdownTick 2000000 stateC4).eventPriceToBeat = stateC4.eventPriceToBeat ∧
      (countdownTick 2000000 stateC4).eventLastPrice = stateC4.eventLastPrice) ∧
    ((loadEventsResolve 2000000 FetchResult.err stateC4).eventPriceToBeat =
        stateC4.eventPriceToBeat ∧
      (loadEventsResolve 2000000 FetchResult.err stateC4).eventLastPrice =
        stateC4.eventLastPrice) :=
  no_price_no_capture 2000000 FetchResult.err stateC4 (by rfl)

/-- C8: the disconnect handler resets only the connection status; price,
history, both capture maps and the event list are untouched. -/
theorem disconnect_frame (s : PlatformState) :
    (disconnectHandler s).currentStatus =
      { connected := false, source := none, lastUpdate := none, error := none } ∧
    (disconnectHandler s).currentPrice = s.currentPrice ∧
    (disconnectHandler s).priceHistory = s.priceHistory ∧
    (disconnectHandler s).eventPriceToBeat = s.eventPriceToBeat ∧
    (disconnectHandler s).eventLastPrice = s.eventLastPrice ∧
    (disconnectHandler s).events = s.events :=
  ⟨rfl, rfl, rfl, rfl, rfl, rfl⟩

/-- C10: in every reachable state, whenever the price history is
non-empty the current price equals the value of its most recent entry;
the tick handler establishes it and every other operation leaves both
fields untouched. -/
theorem price_history_consistent (s : PlatformState) (h : Reachable s) :
    ∀ e : Int × Rat, s.priceHistory.getLast? = some e → s.currentPrice = some e.2 := by
  induction h with
  | init =>
      intro e he
      simp [initState] at he
  | step a hs ih => exact priceInv_applyStep a ih

/-- C10 witness: after one tick carrying 5 from the initial state, the
current price is the value of the last history entry. -/
theorem price_history_consistent_witness :
    (applyStep (Step.tick 2000000 (tickU 5)) initState).currentPrice = some 5 :=
  price_history_consistent _ (Reachable.step _ Reachable.init) (2000000, 5) (by rfl)

/-- C4: the last-price rule covers all adjacent pairs in one pass.  With
events E1 (expired), E2 (expired), E3 (active) and empty capture maps, a
single tick carrying any value V captures lastPrice of E2 and E3 and
priceToBeat of E3, all equal to V. -/
theorem multi_expiry_single_tick (V : Rat) :
    mapGet (handlePriceUpdate 2000000 (tickU V) stateC4).eventLastPrice "e2" = some V ∧
    mapGet (handlePriceUpdate 2000000 (tickU V) stateC4).eventLastPrice "e3" = some V ∧
    mapGet (handlePriceUpdate 2000000 (tickU V) stateC4).eventPriceToBeat "e3" = some V := by
  have hmain : handlePriceUpdate 2000000 (tickU V) stateC4 =
      updatePriceDisplay (capturePriceForExpiredEvent 2000000
        (capturePriceForActiveEvent 2000000 (stateC4a V))) := by
    simp [handlePriceUpdate, stateC4, stateC4a, tickU, initState, maxHistorySize]
  have hact : capturePriceForActiveEvent 2000000 (stateC4a V) =
      renderActiveEvent 2000000 { stateC4a V with eventPriceToBeat := [("e3", V)] } := by
    simp [capturePriceForActiveEvent, stateC4a, initState, evE1, evE2, evE3,
      mapGet, mapSet, mapHas, List.find?]
  have hB : renderActiveEvent 2000000 { stateC4a V with eventPriceToBeat := [("e3", V)] } =
      stateC4b V := by
    simp [renderActiveEvent, captureIfMissing, startCountdown, stopCountdown,
      updateCountdown, expiryCapture, logRender, stateC4a, initState, evE1, evE2, evE3,
      mapGet, mapSet, mapHas, List.find?, stateC4b, formatCountdown, pad2,
      findNextAfterActive]
    rfl
  rw [hmain, hact, hB]
  refine ⟨?_, ?_, ?_⟩ <;>
  simp [capturePriceForExpiredEvent, capturePass, stateC4b, evE1, evE2, evE3,
    mapGet, mapSet, mapHas, renderEventsTable, capturePriceForActiveEvent,
    renderActiveEvent, captureIfMissing, startCountdown, stopCountdown, updateCountdown,
    expiryCapture, logRender, findNextAfterActive, List.find?, updatePriceDisplay]

theorem stopCountdown_renderedCountdown (s : PlatformState) :
    (stopCountdown s).renderedCountdown = s.renderedCountdown := by
  unfold stopCountdown
  split <;> rfl

theorem stopCountdown_refresh (s : PlatformState) :
    (stopCountdown s).refreshesRequested = s.refreshesRequested := by
  unfold stopCountdown
  split <;> rfl

theorem stopCountdown_nextTimerId (s : PlatformState) :
    (stopCountdown s).nextTimerId = s.nextTimerId := by
  unfold stopCountdown
  split <;> rfl

theorem stopCountdown_lp (s : PlatformState) :
    (stopCountdown s).eventLastPrice = s.eventLastPrice := by
  unfold stopCountdown
  split <;> rfl

theorem expiryCapture_renderedCountdown (s1 : PlatformState) :
    (expiryCapture s1).renderedCountdown = s1.renderedCountdown := by
  unfold expiryCapture
  split
  · rfl
  · split
    · rfl
    · split <;> rfl

theorem expiryCapture_refresh (s1 : PlatformState) :
    (expiryCapture s1).refreshesRequested = s1.refreshesRequested := by
  unfold expiryCapture
  split
  · rfl
  · split
    · rfl
    · split <;> rfl

theorem expiryCapture_liveTimers (s1 : PlatformState) :
    (expiryCapture s1).liveTimers = s1.liveTimers := by
  unfold expiryCapture
  split
  · rfl
  · split
    · rfl
    · split <;> rfl

theorem stopCountdown_timers_subset (s : PlatformState) :
    ∀ x ∈ (stopCountdown s).liveTimers, x ∈ s.liveTimers := by
  unfold stopCountdown
  split
  · exact fun x hx => hx
  · intro x hx
    exact List.mem_of_mem_erase hx

theorem updateCountdown_timers_subset (now : Int) (s : PlatformState) :
    ∀ x ∈ (updateCountdown now s).liveTimers, x ∈ s.liveTimers := by
  unfold updateCountdown
  split
  · exact stopCountdown_timers_subset s
  · dsimp only
    split
    · intro x hx
      have h1 := stopCountdown_timers_subset (expiryCapture _) x hx
      rw [expiryCapture_liveTimers] at h1
      exact h1
    · exact fun x hx => hx

theorem countdownTick_of_none {s : PlatformState} (h : s.countdownInterval = none)
    (now : Int) : countdownTick now s = s := by
  unfold countdownTick
  rw [h]
  rfl

theorem timerInv_length {t : PlatformState} (h : TimerInv t) : t.liveTimers.length ≤ 1 := by
  rw [h.1]
  cases t.countdownInterval <;> simp [Option.toList]

theorem expiryCapture_captures {s1 : PlatformState} {p : Rat} {next : EventDisplayData}
    (hp : s1.currentPrice = some p) (hnext : findNextAfterActive s1.events = some next)
    (hnone : mapGet s1.eventLastPrice next.slug = none) :
    mapGet (expiryCapture s1).eventLastPrice next.slug = some p := by
  unfold expiryCapture
  rw [hp]
  dsimp only
  rw [hnext]
  dsimp only
  rw [if_neg]
  · exact mapGet_mapSet_self _ _ _
  · rw [mapHas, hnone]
    simp

/-- C5: while the countdown runs for the active event, the rendered
remaining time is formatCountdown of max(0, floor((endTime - now)/1000));
at the boundary endTime - now = 0 the rendered text is 00:00:00 and the
expiry handling (next-event last-price capture, stopping the cadence,
forcing a refresh) runs exactly once: the interval is cleared, the
refresh counter rises by exactly one, and any further countdown firing is
a no-op. -/
theorem countdown_boundary (now : Int) (s : PlatformState) (e : EventDisplayData) (id : Nat)
    (hrun : s.countdownInterval = some id)
    (hactive : s.events.find? (fun x => decide (x.status = EventStatus.active)) = some e) :
    (updateCountdown now s).renderedCountdown =
      some (formatCountdown (max 0 ((e.endDate - now) / 1000))) ∧
    (e.endDate - now = 0 →
      (countdownTick now s).renderedCountdown = some "00:00:00" ∧
      (countdownTick now s).refreshesRequested = s.refreshesRequested + 1 ∧
      (countdownTick now s).countdownInterval = none ∧
      (∀ (p : Rat) (next : EventDisplayData), s.currentPrice = some p →
        findNextAfterActive s.events = some next →
        mapGet s.eventLastPrice next.slug = none →
        mapGet (countdownTick now s).eventLastPrice next.slug = some p) ∧
      ∀ now2, countdownTick now2 (countdownTick now s) = countdownTick now s) := by
  have hcd : countdownTick now s = updateCountdown now s := by
    unfold countdownTick
    rw [hrun]
    rfl
  constructor
  · unfold updateCountdown
    rw [hactive]
    dsimp only
    split
    · rw [stopCountdown_renderedCountdown, expiryCapture_renderedCountdown]
    · rfl
  · intro h0
    have htl : max 0 ((e.endDate - now) / 1000) = 0 := by
      rw [h0]
      norm_num
    rw [hcd]
    unfold updateCountdown
    rw [hactive]
    dsimp only
    rw [if_pos htl, htl]
    refine ⟨?_, ?_, ?_, ?_, ?_⟩
    · rw [stopCountdown_renderedCountdown, expiryCapture_renderedCountdown]
      rfl
    · rw [stopCountdown_refresh, expiryCapture_refresh]
    · rw [stopCountdown_interval]
    · intro p next hp hnext hnone
      dsimp only
      rw [stopCountdown_lp]
      exact expiryCapture_captures hp hnext hnone
    · intro now2
      apply countdownTick_of_none
      rw [stopCountdown_interval]

/-- C9: starting the countdown first fully stops any previous cadence,
so in every reachable state the live countdown timers are exactly the
stored interval handle (hence at most one), restarting never lets the old
timer survive and never accumulates duplicates. -/
theorem countdown_single_owner (s : PlatformState) (h : Reachable s) :
    (s.liveTimers = s.countdownInterval.toList ∧ s.liveTimers.length ≤ 1) ∧
    (∀ now id, s.countdownInterval = some id → id ∉ (startCountdown now s).liveTimers) ∧
    (∀ now, (startCountdown now s).liveTimers.length ≤ 1) := by
  have hinv : TimerInv s := by
    induction h with
    | init => exact ⟨rfl, fun id hmem => by cases hmem⟩
    | step a hs ih => exact timerInv_applyStep a ih
  refine ⟨⟨hinv.1, timerInv_length hinv⟩, ?_, ?_⟩
  · intro now id hid hmem
    have hstopinv := (tame_stopCountdown s).2.2.2.1 hinv
    have hstop_live : (stopCountdown s).liveTimers = [] := by
      rw [hstopinv.1, stopCountdown_interval]
      rfl
    unfold startCountdown at hmem
    dsimp only at hmem
    have hsub := updateCountdown_timers_subset now _ id hmem
    dsimp only at hsub
    rw [hstop_live] at hsub
    have hideq : id = (stopCountdown s).nextTimerId := by
      cases hsub with
      | head => rfl
      | tail _ hmem2 => cases hmem2
    rw [stopCountdown_nextTimerId] at hideq
    have hlt := hinv.2 id hid
    omega
  · intro now
    exact timerInv_length ((tame_startCountdown now s).2.2.2.1 hinv)

/-- C5 witness: at the instant equal to the active event endDate, the
running countdown renders 00:00:00, raises the refresh counter by one,
clears the interval, and any further firing is a no-op. -/
theorem countdown_boundary_witness :
    (countdownTick 2700000 stateC5).renderedCountdown = some "00:00:00" ∧
    (countdownTick 2700000 stateC5).refreshesRequested = stateC5.refreshesRequested + 1 ∧
    (countdownTick 2700000 stateC5).countdownInterval = none ∧
    (∀ (p : Rat) (next : EventDisplayData), stateC5.currentPrice = some p →
      findNextAfterActive stateC5.events = some next →
      mapGet stateC5.eventLastPrice next.slug = none →
      mapGet (countdownTick 2700000 stateC5).eventLastPrice next.slug = some p) ∧
    ∀ now2, countdownTick now2 (countdownTick 2700000 stateC5) =
      countdownTick 2700000 stateC5 :=
  (countdown_boundary 2700000 stateC5 evE3 0 (by rfl) (by rfl)).2 (by decide)

/-- C9 witness: after loading two events (one active) from the initial
state, the countdown is running; the invariant holds and restarting keeps
a single timer with the old handle gone. -/
theorem countdown_single_owner_witness :
    ((applyStep (Step.eventsUpdated 2000000 [evE3, evUp]) initState).liveTimers =
        (applyStep (Step.eventsUpdated 2000000 [evE3, evUp])
          initState).countdownInterval.toList ∧
      (applyStep (Step.eventsUpdated 2000000 [evE3, evUp]) initState).liveTimers.length ≤ 1) ∧
    0 ∉ (startCountdown 2100000
      (applyStep (Step.eventsUpdated 2000000 [evE3, evUp]) initState)).liveTimers ∧
    (startCountdown 2100000
      (applyStep (Step.eventsUpdated 2000000 [evE3, evUp]) initState)).liveTimers.length ≤ 1 := by
  have h := countdown_single_owner _ (Reachable.step (Step.eventsUpdated 2000000 [evE3, evUp])
    Reachable.init)
  exact ⟨h.1, h.2.1 2100000 0 (by decide), h.2.2 2100000⟩

theorem evol_count_le {s t : PlatformState} (h : Evol s t) (a : RenderAction) :
    countRender a s ≤ countRender a t := by
  obtain ⟨_, _, ⟨l, hl⟩, _⟩ := h
  unfold countRender
  rw [hl, List.count_append]
  omega

theorem count_logRender_self (a : RenderAction) (s : PlatformState) :
    countRender a (logRender a s) = countRender a s + 1 := by
  unfold countRender logRender
  simp [List.count_cons_self]

theorem notifyPtb_comp {s t u : PlatformState}
    (hst : Evol s t) (htu : Evol t u)
    (h1 : t.eventPriceToBeat ≠ s.eventPriceToBeat →
      countRender .activePanel s < countRender .activePanel t)
    (h2 : u.eventPriceToBeat ≠ t.eventPriceToBeat →
      countRender .activePanel t < countRender .activePanel u) :
    u.eventPriceToBeat ≠ s.eventPriceToBeat →
      countRender .activePanel s < countRender .activePanel u := by
  intro hne
  by_cases hmid : t.eventPriceToBeat = s.eventPriceToBeat
  · have h2c := h2 (by rw [hmid]; exact hne)
    exact Nat.lt_of_le_of_lt (evol_count_le hst _) h2c
  · exact Nat.lt_of_lt_of_le (h1 hmid) (evol_count_le htu _)

theorem notifyLp_comp {s t u : PlatformState}
    (hst : Evol s t) (htu : Evol t u)
    (h1 : t.eventLastPrice ≠ s.eventLastPrice →
      countRender .eventsTable s < countRender .eventsTable t ∨
      s.refreshesRequested < t.refreshesRequested)
    (h2 : u.eventLastPrice ≠ t.eventLastPrice →
      countRender .eventsTable t < countRender .eventsTable u ∨
      t.refreshesRequested < u.refreshesRequested) :
    u.eventLastPrice ≠ s.eventLastPrice →
      countRender .eventsTable s < countRender .eventsTable u ∨
      s.refreshesRequested < u.refreshesRequested := by
  intro hne
  by_cases hmid : t.eventLastPrice = s.eventLastPrice
  · rcases h2 (by rw [hmid]; exact hne) with hc | hr
    · exact Or.inl (Nat.lt_of_le_of_lt (evol_count_le hst _) hc)
    · exact Or.inr (Nat.lt_of_le_of_lt hst.2.2.2 hr)
  · rcases h1 hmid with hc | hr
    · exact Or.inl (Nat.lt_of_lt_of_le hc (evol_count_le htu _))
    · exact Or.inr (Nat.lt_of_lt_of_le hr htu.2.2.2)

theorem stopCountdown_renders (s : PlatformState) :
    (stopCountdown s).renders = s.renders := by
  unfold stopCountdown
  split <;> rfl

theorem stopCountdown_ptb (s : PlatformState) :
    (stopCountdown s).eventPriceToBeat = s.eventPriceToBeat := by
  unfold stopCountdown
  split <;> rfl

theorem expiryCapture_ptb (s1 : PlatformState) :
    (expiryCapture s1).eventPriceToBeat = s1.eventPriceToBeat := by
  unfold expiryCapture
  split
  · rfl
  · split
    · rfl
    · split <;> rfl

theorem captureIfMissing_renders (e : EventDisplayData) (s : PlatformState) :
    (captureIfMissing e s).renders = s.renders := by
  unfold captureIfMissing
  split <;> rfl

theorem captureIfMissing_lp (e : EventDisplayData) (s : PlatformState) :
    (captureIfMissing e s).eventLastPrice = s.eventLastPrice := by
  unfold captureIfMissing
  split <;> rfl

theorem updateCountdown_ptb (now : Int) (s : PlatformState) :
    (updateCountdown now s).eventPriceToBeat = s.eventPriceToBeat := by
  unfold updateCountdown
  split
  · exact stopCountdown_ptb s
  · dsimp only
    split
    · rw [stopCountdown_ptb, expiryCapture_ptb]
    · rfl

theorem updateCountdown_notifyLp (now : Int) (s : PlatformState) :
    (updateCountdown now s).eventLastPrice ≠ s.eventLastPrice →
      countRender .eventsTable s < countRender .eventsTable (updateCountdown now s) ∨
      s.refreshesRequested < (updateCountdown now s).refreshesRequested := by
  unfold updateCountdown
  split
  · intro hne
    exact absurd (stopCountdown_lp s) hne
  · dsimp only
    split
    · intro hne
      right
      rw [stopCountdown_refresh, expiryCapture_refresh]
      exact Nat.lt_succ_self _
    · intro hne
      exact absurd rfl hne

theorem startCountdown_ptb (now : Int) (s : PlatformState) :
    (startCountdown now s).eventPriceToBeat = s.eventPriceToBeat := by
  unfold startCountdown
  dsimp only
  rw [updateCountdown_ptb]
  exact stopCountdown_ptb s

theorem startCountdown_notifyLp (now : Int) (s : PlatformState) :
    (startCountdown now s).eventLastPrice ≠ s.eventLastPrice →
      countRender .eventsTable s < countRender .eventsTable (startCountdown now s) ∨
      s.refreshesRequested < (startCountdown now s).refreshesRequested := by
  unfold startCountdown
  dsimp only
  refine notifyLp_comp (t := { stopCountdown s with
      liveTimers := (stopCountdown s).nextTimerId :: (stopCountdown s).liveTimers
      nextTimerId := (stopCountdown s).nextTimerId + 1
      countdownInterval := some (stopCountdown s).nextTimerId }) ?_ ?_ ?_ ?_
  · exact evol_trans (tame_stopCountdown s).1
      ⟨fun _ _ h => h, fun _ _ h => h, ⟨[], rfl⟩, Nat.le_refl _⟩
  · exact (tame_updateCountdown now _).1
  · intro hne
    exact absurd (stopCountdown_lp s) hne
  · exact updateCountdown_notifyLp now _

theorem renderActiveEvent_panel_count (now : Int) (s : PlatformState) :
    countRender .activePanel s < countRender .activePanel (renderActiveEvent now s) := by
  unfold renderActiveEvent
  split
  · rw [count_logRender_self]
    unfold countRender
    rw [stopCountdown_renders]
    exact Nat.lt_succ_self _
  · dsimp only
    refine Nat.lt_of_lt_of_le ?_ (evol_count_le (tame_startCountdown now _).1 _)
    show countRender .activePanel s <
      countRender .activePanel (logRender .activePanel (captureIfMissing _ s))
    rw [count_logRender_self]
    unfold countRender
    rw [captureIfMissing_renders]
    exact Nat.lt_succ_self _

theorem renderActiveEvent_notifyLp (now : Int) (s : PlatformState) :
    (renderActiveEvent now s).eventLastPrice ≠ s.eventLastPrice →
      countRender .eventsTable s < countRender .eventsTable (renderActiveEvent now s) ∨
      s.refreshesRequested < (renderActiveEvent now s).refreshesRequested := by
  unfold renderActiveEvent
  split
  · intro hne
    refine absurd ?_ hne
    show (logRender .activePanel (stopCountdown s)).eventLastPrice = s.eventLastPrice
    rw [logRender]
    exact stopCountdown_lp s
  · rename_i e _
    dsimp only
    refine notifyLp_comp (t := { logRender .activePanel (captureIfMissing e s) with
        renderedCountdown := some "--:--:--" }) ?_ ?_ ?_ ?_
    · exact evol_trans (tame_captureIfMissing e s).1
        (evol_trans (tame_logRender _ _).1
          ⟨fun _ _ h => h, fun _ _ h => h, ⟨[], rfl⟩, Nat.le_refl _⟩)
    · exact (tame_startCountdown now _).1
    · intro hne
      refine absurd ?_ hne
      show (logRender .activePanel (captureIfMissing e s)).eventLastPrice = s.eventLastPrice
      rw [logRender]
      exact captureIfMissing_lp e s
    · exact startCountdown_notifyLp now _

theorem capturePriceForActiveEvent_notifyPtb (now : Int) (s : PlatformState) :
    (capturePriceForActiveEvent now s).eventPriceToBeat ≠ s.eventPriceToBeat →
      countRender .activePanel s <
        countRender .activePanel (capturePriceForActiveEvent now s) := by
  unfold capturePriceForActiveEvent
  split
  · intro hne
    exact absurd rfl hne
  · split
    · intro hne
      exact absurd rfl hne
    · split
      · intro hne
        exact absurd rfl hne
      · intro hne
        refine Nat.lt_of_le_of_lt ?_ (renderActiveEvent_panel_count now _)
        exact Nat.le_refl _

theorem capturePriceForActiveEvent_notifyLp (now : Int) (s : PlatformState) :
    (capturePriceForActiveEvent now s).eventLastPrice ≠ s.eventLastPrice →
      countRender .eventsTable s <
        countRender .eventsTable (capturePriceForActiveEvent now s) ∨
      s.refreshesRequested < (capturePriceForActiveEvent now s).refreshesRequested := by
  unfold capturePriceForActiveEvent
  split
  · intro hne
    exact absurd rfl hne
  · split
    · intro hne
      exact absurd rfl hne
    · split
      · intro hne
        exact absurd rfl hne
      · rename_i p hp e hfind hh
        exact renderActiveEvent_notifyLp now _

theorem renderEventsTable_table_count (now : Int) (s : PlatformState) :
    countRender .eventsTable s < countRender .eventsTable (renderEventsTable now s) := by
  unfold renderEventsTable
  rw [count_logRender_self]
  have h1 := evol_count_le (tame_capturePriceForActiveEvent now s).1 RenderAction.eventsTable
  have h2 := evol_count_le (tame_renderActiveEvent now
    (capturePriceForActiveEvent now s)).1 RenderAction.eventsTable
  omega

theorem renderEventsTable_panel_count (now : Int) (s : PlatformState) :
    countRender .activePanel s < countRender .activePanel (renderEventsTable now s) := by
  unfold renderEventsTable
  dsimp only
  have h1 := evol_count_le (tame_capturePriceForActiveEvent now s).1 RenderAction.activePanel
  have h2 := renderActiveEvent_panel_count now (capturePriceForActiveEvent now s)
  have h3 : countRender .activePanel (renderActiveEvent now
        (capturePriceForActiveEvent now s)) ≤
      countRender .activePanel (logRender .eventsTable (renderActiveEvent now
        (capturePriceForActiveEvent now s))) := by
    unfold countRender logRender
    simp [List.count_cons]
  omega

theorem capturePass_true_notifyPtb (now : Int) (l : List EventDisplayData) :
    ∀ s : PlatformState, (capturePass now true l s).eventPriceToBeat ≠ s.eventPriceToBeat →
      countRender .activePanel s < countRender .activePanel (capturePass now true l s) := by
  induction l with
  | nil =>
      intro s h
      rw [capturePass] at h
      exact absurd rfl h
  | cons a tl ih =>
      intro s
      cases tl with
      | nil =>
          intro h
          rw [capturePass] at h
          exact absurd rfl h
      | cons c r =>
          rw [capturePass]
          simp only [eq_self_iff_true, if_true]
          split
          · rename_i hcond
            split
            · rename_i p hp
              refine notifyPtb_comp ?_ (tame_capturePass now true (c :: r) _).1 ?_ (ih _)
              · exact evol_trans (tame_setLpGuarded hcond.2 hp).1
                  (tame_renderEventsTable now _).1
              · intro hne
                exact renderEventsTable_panel_count now
                  { s with eventLastPrice := mapSet s.eventLastPrice c.slug p }
            · exact ih s
          · exact ih s

theorem capturePass_true_notifyLp (now : Int) (l : List EventDisplayData) :
    ∀ s : PlatformState, (capturePass now true l s).eventLastPrice ≠ s.eventLastPrice →
      countRender .eventsTable s < countRender .eventsTable (capturePass now true l s) ∨
      s.refreshesRequested < (capturePass now true l s).refreshesRequested := by
  induction l with
  | nil =>
      intro s h
      rw [capturePass] at h
      exact absurd rfl h
  | cons a tl ih =>
      intro s
      cases tl with
      | nil =>
          intro h
          rw [capturePass] at h
          exact absurd rfl h
      | cons c r =>
          rw [capturePass]
          simp only [eq_self_iff_true, if_true]
          split
          · rename_i hcond
            split
            · rename_i p hp
              refine notifyLp_comp ?_ (tame_capturePass now true (c :: r) _).1 ?_ (ih _)
              · exact evol_trans (tame_setLpGuarded hcond.2 hp).1
                  (tame_renderEventsTable now _).1
              · intro hne
                exact Or.inl (renderEventsTable_table_count now
                  { s with eventLastPrice := mapSet s.eventLastPrice c.slug p })
            · exact ih s
          · exact ih s

theorem capturePriceForExpiredEvent_notifyPtb (now : Int) (s : PlatformState) :
    (capturePriceForExpiredEvent now s).eventPriceToBeat ≠ s.eventPriceToBeat →
      countRender .activePanel s <
        countRender .activePanel (capturePriceForExpiredEvent now s) := by
  unfold capturePriceForExpiredEvent
  split
  · intro h
    exact absurd rfl h
  · exact capturePass_true_notifyPtb now s.events s

theorem capturePriceForExpiredEvent_notifyLp (now : Int) (s : PlatformState) :
    (capturePriceForExpiredEvent now s).eventLastPrice ≠ s.eventLastPrice →
      countRender .eventsTable s <
        countRender .eventsTable (capturePriceForExpiredEvent now s) ∨
      s.refreshesRequested < (capturePriceForExpiredEvent now s).refreshesRequested := by
  unfold capturePriceForExpiredEvent
  split
  · intro h
    exact absurd rfl h
  · exact capturePass_true_notifyLp now s.events s

theorem getNext15MinIntervals_length (count : Nat) (now : Int) :
    (getNext15MinIntervals count now).length = count := by
  unfold getNext15MinIntervals
  rw [List.length_map]
  exact List.length_range count

theorem loadEventsResolve_table_count (now : Int) (r : FetchResult) (s : PlatformState) :
    countRender .eventsTable s <
      countRender .eventsTable (loadEventsResolve now r s) := by
  unfold loadEventsResolve
  split
  · rename_i evs
    refine Nat.lt_of_le_of_lt ?_ (renderEventsTable_table_count now _)
    exact evol_count_le (tame_updateLastPrices now { s with events := evs }).1 _
  · split
    · refine Nat.lt_of_le_of_lt ?_ (renderEventsTable_table_count now _)
      exact evol_count_le (tame_updateLastPrices now s).1 _
    · rename_i hlen
      rw [getNext15MinIntervals_length] at hlen
      omega

theorem loadEventsResolve_panel_count (now : Int) (r : FetchResult) (s : PlatformState) :
    countRender .activePanel s <
      countRender .activePanel (loadEventsResolve now r s) := by
  unfold loadEventsResolve
  split
  · rename_i evs
    refine Nat.lt_of_le_of_lt ?_ (renderEventsTable_panel_count now _)
    exact evol_count_le (tame_updateLastPrices now { s with events := evs }).1 _
  · split
    · refine Nat.lt_of_le_of_lt ?_ (renderEventsTable_panel_count now _)
      exact evol_count_le (tame_updateLastPrices now s).1 _
    · rename_i hlen
      rw [getNext15MinIntervals_length] at hlen
      omega

theorem handlePriceUpdate_notifyPtb (now : Int) (u : PriceUpdate) (s : PlatformState) :
    (handlePriceUpdate now u s).eventPriceToBeat ≠ s.eventPriceToBeat →
      countRender .activePanel s < countRender .activePanel (handlePriceUpdate now u s) := by
  unfold handlePriceUpdate
  dsimp only
  split
  all_goals {
    refine notifyPtb_comp ?_ (tame_updatePriceDisplay _).1 ?_ ?_
    · refine evol_trans ?_ (evol_trans (tame_capturePriceForActiveEvent now _).1
        (tame_capturePriceForExpiredEvent now _).1)
      exact ⟨fun _ _ h => h, fun _ _ h => h, ⟨[], rfl⟩, Nat.le_refl _⟩
    · refine notifyPtb_comp ?_ (tame_capturePriceForExpiredEvent now _).1 ?_
        (capturePriceForExpiredEvent_notifyPtb now _)
      · refine evol_trans ?_ (tame_capturePriceForActiveEvent now _).1
        exact ⟨fun _ _ h => h, fun _ _ h => h, ⟨[], rfl⟩, Nat.le_refl _⟩
      · refine notifyPtb_comp ?_ (tame_capturePriceForActiveEvent now _).1 ?_
          (capturePriceForActiveEvent_notifyPtb now _)
        · exact ⟨fun _ _ h => h, fun _ _ h => h, ⟨[], rfl⟩, Nat.le_refl _⟩
        · intro h
          exact absurd rfl h
    · intro h
      exact absurd rfl h
  }

theorem handlePriceUpdate_notifyLp (now : Int) (u : PriceUpdate) (s : PlatformState) :
    (handlePriceUpdate now u s).eventLastPrice ≠ s.eventLastPrice →
      countRender .eventsTable s < countRender .eventsTable (handlePriceUpdate now u s) ∨
      s.refreshesRequested < (handlePriceUpdate now u s).refreshesRequested := by
  unfold handlePriceUpdate
  dsimp only
  split
  all_goals {
    refine notifyLp_comp ?_ (tame_updatePriceDisplay _).1 ?_ ?_
    · refine evol_trans ?_ (evol_trans (tame_capturePriceForActiveEvent now _).1
        (tame_capturePriceForExpiredEvent now _).1)
      exact ⟨fun _ _ h => h, fun _ _ h => h, ⟨[], rfl⟩, Nat.le_refl _⟩
    · refine notifyLp_comp ?_ (tame_capturePriceForExpiredEvent now _).1 ?_
        (capturePriceForExpiredEvent_notifyLp now _)
      · refine evol_trans ?_ (tame_capturePriceForActiveEvent now _).1
        exact ⟨fun _ _ h => h, fun _ _ h => h, ⟨[], rfl⟩, Nat.le_refl _⟩
      · refine notifyLp_comp ?_ (tame_capturePriceForActiveEvent now _).1 ?_
          (capturePriceForActiveEvent_notifyLp now _)
        · exact ⟨fun _ _ h => h, fun _ _ h => h, ⟨[], rfl⟩, Nat.le_refl _⟩
        · intro h
          exact absurd rfl h
    · intro h
      exact absurd rfl h
  }

/-- C7: no capture path is silent.  For every external signal, a new
price-to-beat entry is accompanied by a re-render of the active-event
panel, and a new last-price entry by a re-render of the full events table
or (on the countdown expiry path) a forced catalog refresh; every refresh
resolution re-renders the full table. -/
theorem capture_notifies (a : Step) (s : PlatformState) :
    ((applyStep a s).eventPriceToBeat ≠ s.eventPriceToBeat →
      countRender .activePanel s < countRender .activePanel (applyStep a s)) ∧
    ((applyStep a s).eventLastPrice ≠ s.eventLastPrice →
      countRender .eventsTable s < countRender .eventsTable (applyStep a s) ∨
      s.refreshesRequested < (applyStep a s).refreshesRequested) ∧
    (∀ now r, countRender .eventsTable s <
      countRender .eventsTable (loadEventsResolve now r s)) := by
  refine ⟨?_, ?_, fun now r => loadEventsResolve_table_count now r s⟩
  · cases a with
    | tick now u => exact handlePriceUpdate_notifyPtb now u s
    | statusChange st => intro h; exact absurd rfl h
    | disconnectClick => intro h; exact absurd rfl h
    | countdownFire now =>
        simp only [applyStep]
        unfold countdownTick
        split
        · intro h
          rw [updateCountdown_ptb] at h
          exact absurd rfl h
        · intro h
          exact absurd rfl h
    | refreshResolve now r =>
        intro h
        exact loadEventsResolve_panel_count now r s
    | eventsUpdated now evs =>
        intro h
        exact renderEventsTable_panel_count now { s with events := evs }
  · cases a with
    | tick now u => exact handlePriceUpdate_notifyLp now u s
    | statusChange st => intro h; exact absurd rfl h
    | disconnectClick => intro h; exact absurd rfl h
    | countdownFire now =>
        simp only [applyStep]
        unfold countdownTick
        split
        · exact updateCountdown_notifyLp now s
        · intro h
          exact absurd rfl h
    | refreshResolve now r =>
        intro h
        exact Or.inl (loadEventsResolve_table_count now r s)
    | eventsUpdated now evs =>
        intro h
        exact Or.inl (renderEventsTable_table_count now { s with events := evs })


/-- C7 witness: a tick on the three-event scenario writes into both maps
and both notifications are observed; a refresh resolution re-renders the
table. -/
theorem capture_notifies_witness :
    countRender .activePanel stateC4 <
      countRender .activePanel (applyStep (Step.tick 2000000 (tickU 5)) stateC4) ∧
    (countRender .eventsTable stateC4 <
        countRender .eventsTable (applyStep (Step.tick 2000000 (tickU 5)) stateC4) ∨
      stateC4.refreshesRequested <
        (applyStep (Step.tick 2000000 (tickU 5)) stateC4).refreshesRequested) ∧
    countRender .eventsTable stateC4 <
      countRender .eventsTable (loadEventsResolve 2000000 FetchResult.err stateC4) := by
  have h := capture_notifies (Step.tick 2000000 (tickU 5)) stateC4
  exact ⟨h.1 (by decide), h.2.1 (by decide), h.2.2 2000000 FetchResult.err⟩

end StreamingPlatform
